import Mathlib

/-!
Verification development for the CHDMOD `montecarlo.py` tool.

The program perturbs numeric simulation-input files: a table pipeline
(`DatFile`/`SDFile`) adds coefficients from a block-structured perturbation
matrix to numeric table lines, and a scalar pipeline (`InpFile`/`Effects`)
multiplicatively perturbs lines matched by unique substring keys.

Lines are modelled as `List Char`; Python floats are modelled as `ℚ`;
Python 2 integer division `/` on nonnegative ints is `Nat` division;
fallible operations (IndexError, ValueError, `sys.exit`) return `Option`
or an explicit result type.  `np.random.randn` is modelled by an abstract
sampler argument, as the spec treats the sampler as a black box.
-/

unseal Rat.add Rat.mul Rat.inv Rat.sub

abbrev Line := List Char

/-- Model of Python `str.split()` applied to a line: split on runs of
whitespace, dropping empty tokens.  Auxiliary: first argument is the
remaining input, second the current (reversed) partial token. -/
def splitTokensAux : Line → Line → List Line
  | [], acc => if acc = [] then [] else [acc.reverse]
  | c :: rest, acc =>
    if c.isWhitespace then
      (if acc = [] then splitTokensAux rest [] else acc.reverse :: splitTokensAux rest [])
    else splitTokensAux rest (c :: acc)

def splitTokens (l : Line) : List Line := splitTokensAux l []

/-- Model of `is_data_line(line)` from `montecarlo.py` line 49, applied (as at
every call site) to a token list produced by `split()`:
`len(line) > 0 and str.isdigit(line[0][0])`.  Tokens produced by `split()`
are never empty, so the first token always has a first character; the
`[] :: _` case is unreachable from `splitTokens` output. -/
def isDataLine (tokens : List Line) : Bool :=
  match tokens with
  | [] => false
  | [] :: _ => false
  | (c :: _) :: _ => c.isDigit

/-- Numeric value of a list of decimal digit characters (most significant
first), as read by Python's `int`/`float` on a digit run. -/
def digitsVal (ds : Line) : Nat :=
  ds.foldl (fun a c => a * 10 + (c.toNat - 48)) 0

/-- Model of Python `float(token)` on nonnegative decimal literals:
digits, optionally followed by a dot and more digits, with at least one
digit overall.  (Exponent forms, `inf`/`nan` and surrounding whitespace are
outside the inputs this program feeds to `float`.) -/
def parseFloatNN (t : Line) : Option ℚ :=
  let ip := t.takeWhile Char.isDigit
  let rest := t.dropWhile Char.isDigit
  match rest with
  | [] => if ip = [] then none else some (digitsVal ip)
  | '.' :: fr =>
    if fr.all Char.isDigit ∧ (ip ≠ [] ∨ fr ≠ []) then
      some ((digitsVal ip : ℚ) + (digitsVal fr : ℚ) / (10 : ℚ) ^ fr.length)
    else none
  | _ => none

/-- Model of Python `float(token)`: optional sign, then a decimal literal. -/
def parseFloat (t : Line) : Option ℚ :=
  match t with
  | '-' :: r => (parseFloatNN r).map Neg.neg
  | '+' :: r => parseFloatNN r
  | r => parseFloatNN r

/-- `parseFloat` over a token list; `none` if any token fails (the Python
list comprehension raises `ValueError`). -/
def parseFloats : List Line → Option (List ℚ)
  | [] => some []
  | t :: ts =>
    match parseFloat t, parseFloats ts with
    | some v, some vs => some (v :: vs)
    | _, _ => none

/-- Round-half-to-even on rationals, the rounding used by Python's fixed
point float formatting. -/
def roundHalfEven (x : ℚ) : ℤ :=
  let f := Rat.floor x
  let r := x - (f : ℚ)
  if r < 1 / 2 then f
  else if 1 / 2 < r then f + 1
  else if f % 2 = 0 then f else f + 1

/-- Decimal digit characters of a natural number, as Python prints it. -/
def natDigits (n : Nat) : Line := Nat.toDigits 10 n

/-- Fixed-point decimal rendering of a nonnegative rational with `prec`
digits after the point, modelling `"%.{prec}f"` on nonnegative values. -/
def decimalReprNN (q : ℚ) (prec : Nat) : Line :=
  let n := (roundHalfEven (q * (10 : ℚ) ^ prec)).toNat
  if prec = 0 then natDigits n
  else
    let ip := n / 10 ^ prec
    let fp := n % 10 ^ prec
    let fd := natDigits fp
    natDigits ip ++ '.' :: (List.replicate (prec - fd.length) '0' ++ fd)

/-- Fixed-point decimal rendering of a rational, with a leading minus sign
for negative values. -/
def decimalRepr (q : ℚ) (prec : Nat) : Line :=
  if q < 0 then '-' :: decimalReprNN (-q) prec else decimalReprNN q prec

/-- Model of one Python format field `\x7b:<{width}.{prec}f\x7d`: fixed-point
rendering, left-justified with spaces to `width`. -/
def renderFixed (q : ℚ) (width prec : Nat) : Line :=
  let s := decimalRepr q prec
  s ++ List.replicate (width - s.length) ' '

/-! ## Standard-deviation table (`SDFile`) -/

/-- Model of `SDFile._set_block_nums` (`montecarlo.py` 163-170): walking the
raw lines, each data line receives block number `n_line / 6` (Python 2
integer division) where `n_line` counts data lines seen so far; non-data
lines keep the initial `-1`. -/
def setBlockNumsAux : List Line → Nat → List Int
  | [], _ => []
  | l :: rest, n =>
    if isDataLine (splitTokens l)
    then ((n / 6 : Nat) : Int) :: setBlockNumsAux rest (n + 1)
    else (-1) :: setBlockNumsAux rest n

/-- The number of data lines of a file, the final `n_line` of
`_set_block_nums`. -/
def countDataLines (lines : List Line) : Nat :=
  (lines.filter (fun l => isDataLine (splitTokens l))).length

/-- Model of `SDFile._count_cols` (157-161): number of whitespace tokens on
the first data line minus one; `none` when no data line exists (the Python
function falls off the end and returns `None`). -/
def countCols : List Line → Option Nat
  | [] => none
  | l :: rest =>
    if isDataLine (splitTokens l) then some ((splitTokens l).length - 1)
    else countCols rest

/-- Model of `SDFile._generate_rnd` (153-155): a `rows × cols` matrix of
samples (`np.random.randn`, abstracted as `sample`), or all zeros in
zero-run mode (`np.zeros`). -/
def mkRnd (zeroRun : Bool) (rows cols : Nat) (sample : Nat → Nat → ℚ) : List (List ℚ) :=
  (List.range rows).map (fun r =>
    (List.range cols).map (fun c => if zeroRun then 0 else sample r c))

/-- State of a constructed `SDFile` (`montecarlo.py` 134-151). -/
structure SDFile where
  lines : List Line
  blockNums : List Int
  numBlocks : Nat
  cols : Nat
  rnd : List (List ℚ)
deriving DecidableEq

/-- Model of `SDFile.__init__` (144-151): block numbers and block count from
`_set_block_nums`, column count from `_count_cols`, matrix of
`num_blocks/2` rows from `_generate_rnd`.  When the table has no data line
`_count_cols` returns `None` and the subsequent `np.zeros((n, None))`
raises; that failure is the `none` result. -/
def mkSDFile (lines : List Line) (zeroRun : Bool) (sample : Nat → Nat → ℚ) : Option SDFile :=
  let bn := setBlockNumsAux lines 0
  let nb := countDataLines lines / 6
  match countCols lines with
  | none => none
  | some c => some ⟨lines, bn, nb, c, mkRnd zeroRun (nb / 2) c sample⟩

/-- The matrix row index `block_num % 2` used by `SDFile.sd_list` (179) for
a given raw line number; Python `%` on a possibly negative block number is
`Int.emod`. -/
def rowIndexUsed (sd : SDFile) (n : Nat) : Option Nat :=
  (sd.blockNums.get? n).map (fun b => (b % 2).toNat)

/-- The comprehension of `SDFile.sd_list` (179):
`[float(sd)*self.rnd[block_num%2,i] for i,sd in enumerate(sds[1:])]`.
The matrix indexing `self.rnd[row,i]` happens only when the body is
evaluated, so an empty token list yields `[]` without ever touching the
matrix; `none` models a `ValueError` from `float` or a numpy `IndexError`
on either index. -/
def scaleTokens (rnd : List (List ℚ)) (ri : Nat) : List Line → Nat → Option (List ℚ)
  | [], _ => some []
  | t :: ts, i =>
    match parseFloat t, (rnd.get? ri).bind (fun row => row.get? i),
        scaleTokens rnd ri ts (i + 1) with
    | some v, some r, some rest => some (v * r :: rest)
    | _, _, _ => none

/-- Model of `SDFile.sd_list` (175-179): look up the line's block number,
and scale each standard-deviation token of the same raw line by the entry
of matrix row `block_num % 2` at the token's column.  `none` models an
uncaught exception; a line with no coefficient tokens yields `[]` without
indexing the matrix, exactly as the Python comprehension does. -/
def sdList (sd : SDFile) (n : Nat) : Option (List ℚ) :=
  match rowIndexUsed sd n, sd.lines.get? n with
  | some ri, some l => scaleTokens sd.rnd ri ((splitTokens l).drop 1) 0
  | _, _ => none

/-! ## Table pipeline (`DatFile`) -/

/-- Outcome of varying one line: left unchanged, replaced by a new line, or
a run-aborting failure (uncaught exception / `sys.exit`). -/
inductive LineResult
  | keep
  | set (l : Line)
  | fail
deriving DecidableEq

/-- The numeric part of `DatFile.vary_line` (104-110): for a data line,
parse `means[1:]` as floats and add the scaled standard deviations
elementwise (`zip` truncates to the shorter list).  `none` when the line is
not a data line or any step fails. -/
def datVaried (sd : SDFile) (lines : List Line) (n : Nat) : Option (List ℚ) :=
  match lines.get? n with
  | none => none
  | some line =>
    if isDataLine (splitTokens line) then
      match sdList sd n, parseFloats ((splitTokens line).drop 1) with
      | some sds, some ms => some (List.zipWith (· + ·) ms sds)
      | _, _ => none
    else none

/-! ## Format-descriptor parsing (`DatFile._parse_format`, 123-131) -/

/-- Model of `re.findall(r'(\d+)x', line)`: the digit captures of every
maximal digit run immediately followed by `x`.  The second argument
accumulates the digit run currently being read. -/
def findDigitsXAux : Line → Line → List Nat
  | [], _ => []
  | c :: rest, ds =>
    if c.isDigit then findDigitsXAux rest (ds ++ [c])
    else if c = 'x' ∧ ds ≠ [] then digitsVal ds :: findDigitsXAux rest []
    else findDigitsXAux rest []

def findDigitsX (l : Line) : List Nat := findDigitsXAux l []

def isNumDot (c : Char) : Bool := c.isDigit || c = '.'

/-- Model of `re.findall(r'f([0-9.]+)', line)[0]`: the capture of the first
`f` followed by a nonempty run of digits and dots; `none` models the
IndexError on an empty match list. -/
def findFSpec : Line → Option Line
  | [] => none
  | 'f' :: rest =>
    let ds := rest.takeWhile isNumDot
    if ds = [] then findFSpec rest else some ds
  | _ :: rest => findFSpec rest

/-- Model of `re.search(r'(\d+)\(', line)` plus `.group(1)`: the first
maximal digit run immediately followed by `(`; `none` models the
AttributeError when `search` returns `None`. -/
def findRepeatAux : Line → Line → Option Nat
  | [], _ => none
  | c :: rest, ds =>
    if c.isDigit then findRepeatAux rest (ds ++ [c])
    else if c = '(' ∧ ds ≠ [] then some (digitsVal ds)
    else findRepeatAux rest []

def findRepeat (l : Line) : Option Nat := findRepeatAux l []

/-- The information `_parse_format` extracts from the descriptor line:
leading padding, raw width-precision token, inter-field padding, repeat
count, from which it builds the Python format string
`' '*lead + ('\x7b:<' + numFormat + 'f\x7d' + ' '*inter)*cols`. -/
structure FormatSpec where
  lead : Nat
  numFormat : Line
  inter : Nat
  cols : Nat
deriving DecidableEq

/-- Model of `DatFile._parse_format` (123-131).  The Python code unpacks the
`(\d+)x` match list into exactly two names (ValueError otherwise), indexes
the first `f([0-9.]+)` match (IndexError when absent) and takes `group(1)`
of the `(\d+)\(` search (AttributeError when absent); each uncaught
exception is the `none` result. -/
def parseFormat (l : Line) : Option FormatSpec :=
  match findDigitsX l, findFSpec l, findRepeat l with
  | [a, b], some nf, some c => some ⟨a, nf, b, c⟩
  | _, _, _ => none

/-- Semantics of the Python format mini-language spec `<{nf}f`: `nf` must be
digits optionally followed by a dot and a nonempty digit run (width then
precision, precision defaulting to 6); anything else raises ValueError when
the format string is applied. -/
def parseFieldSpec (nf : Line) : Option (Nat × Nat) :=
  let w := nf.takeWhile Char.isDigit
  let rest := nf.dropWhile Char.isDigit
  match rest with
  | [] => if w = [] then none else some (digitsVal w, 6)
  | '.' :: p =>
    if p ≠ [] ∧ p.all Char.isDigit then some (digitsVal w, digitsVal p) else none
  | _ => none

/-- Model of `VFile.format_line`'s `self.frmt_str.format(*out_list)` for the
format string built by `_parse_format`: leading padding, then `cols` copies
of a left-justified fixed-point field followed by inter-field padding,
consuming the values in order (extra values are ignored; too few raise
IndexError, and an invalid field spec raises ValueError — both `none`). -/
def renderLine (fs : FormatSpec) (vs : List ℚ) : Option Line :=
  match parseFieldSpec fs.numFormat with
  | none => none
  | some wp =>
    if vs.length < fs.cols then none
    else some (List.replicate fs.lead ' ' ++
      ((vs.take fs.cols).map
        (fun v => renderFixed v wp.1 wp.2 ++ List.replicate fs.inter ' ')).flatten)

/-- Model of `DatFile.vary_line` (104-110) at the line level: a non-data
line is left untouched; a data line is replaced by the re-rendered varied
values; any uncaught exception aborts the run. -/
def datVaryLine (sd : SDFile) (fs : FormatSpec) (lines : List Line) (n : Nat) : LineResult :=
  match lines.get? n with
  | none => .fail
  | some line =>
    if isDataLine (splitTokens line) then
      match datVaried sd lines n with
      | none => .fail
      | some v =>
        match renderLine fs v with
        | none => .fail
        | some l => .set l
    else .keep

/-! ## Scalar pipeline (`Effects`, `InpFile`) -/

/-- `startsWithTok p l`: whether `l` starts with `p` (prefix test used by
the substring search). -/
def startsWithTok : Line → Line → Bool
  | [], _ => true
  | _ :: _, [] => false
  | c :: cs, d :: ds => c = d && startsWithTok cs ds

/-- Model of Python `line.find(key) != -1`: `key` occurs as a contiguous
substring of `line`. -/
def containsSub (key : Line) : Line → Bool
  | [] => key = []
  | c :: rest => startsWithTok key (c :: rest) || containsSub key rest

/-- Result of `Effects.get_sd` (230-236): a coefficient, no match (`None`),
or the `sys.exit` of `_test_repeats` (238-244). -/
inductive SdResult
  | effect (q : ℚ)
  | noEffect
  | abort
deriving DecidableEq

/-- Scan of `get_sd`: for the first pair whose key is a substring of the
line, `_test_repeats` checks whether any *other* key of the full table also
occurs in the line (aborting the run if so) and otherwise the pair's
coefficient is returned; `None` when no key matches. -/
def getSdAux (full : List (Line × ℚ)) : List (Line × ℚ) → Line → SdResult
  | [], _ => .noEffect
  | (k, sd) :: rest, line =>
    if containsSub k line then
      (if (full.filter (fun p => p.1 ≠ k)).any (fun p => containsSub p.1 line)
       then .abort else .effect sd)
    else getSdAux full rest line

/-- Model of `Effects.get_sd` (230-236) together with `_test_repeats`
(238-244). -/
def getSd (pairs : List (Line × ℚ)) (line : Line) : SdResult :=
  getSdAux pairs pairs line

/-- Model of Python `str.split(sep)` for a one-character separator (used by
`line.split(',')`): splits at every occurrence, keeping empty pieces. -/
def splitOnAux (sep : Char) : Line → Line → List Line
  | [], acc => [acc.reverse]
  | c :: r, acc =>
    if c = sep then acc.reverse :: splitOnAux sep r []
    else splitOnAux sep r (c :: acc)

def splitOn (sep : Char) (l : Line) : List Line := splitOnAux sep l []

/-- Model of `Effects._generate_pairs` (224-228): each `key,sd` line (after
the header) contributes the pair `(key, float(sd) * rnd[i])`; `none` when a
line does not split into exactly two comma-parts (unpacking ValueError),
the standard deviation fails to parse, or the random list is too short. -/
def generatePairsAux (rnd : List ℚ) : List Line → Nat → Option (List (Line × ℚ))
  | [], _ => some []
  | l :: rest, i =>
    match splitOn ',' l with
    | [k, s] =>
      (match parseFloat s, rnd.get? i, generatePairsAux rnd rest (i + 1) with
       | some sv, some r, some ps => some ((k, sv * r) :: ps)
       | _, _, _ => none)
    | _ => none

/-- Model of `Effects.__init__` with `_generate_rnd` (212-222): the random
list has one entry per non-header line (all zeros in zero-run mode,
abstract samples otherwise) and the pairs are built from `lines[1:]`. -/
def mkEffects (lines : List Line) (zeroRun : Bool) (sample : Nat → ℚ) : Option (List (Line × ℚ)) :=
  let size := lines.length - 1
  let rnd := if zeroRun then List.replicate size 0 else (List.range size).map sample
  generatePairsAux rnd (lines.drop 1) 0

/-- The numeric part of `InpFile.vary_line` (194-200): when `get_sd`
returns a coefficient, the line's leading token is parsed as the mean and
the varied value is `mean + sd * mean`. -/
def inpVaried (pairs : List (Line × ℚ)) (line : Line) : Option ℚ :=
  match getSd pairs line with
  | .effect sd =>
    (match splitTokens line with
     | [] => none
     | t :: _ => (parseFloat t).map (fun m => m + sd * m))
  | _ => none

/-- Model of `InpFile.vary_line` (194-200) at the line level, with the fixed
format string `'\x7b:<8.6f\x7d'` (192): the line is replaced only when some
key matches; `sys.exit` in `_test_repeats` and uncaught exceptions abort. -/
def inpVaryLine (pairs : List (Line × ℚ)) (line : Line) : LineResult :=
  match getSd pairs line with
  | .abort => .fail
  | .noEffect => .keep
  | .effect sd =>
    match splitTokens line with
    | [] => .fail
    | t :: _ =>
      match parseFloat t with
      | none => .fail
      | some m => .set (renderFixed (m + sd * m) 8 6)

/-! ## Concrete fixtures used by witnesses and counterexamples -/

def zeroSample2 : Nat → Nat → ℚ := fun _ _ => 0
def halfSample : Nat → Nat → ℚ := fun _ _ => 1 / 2
def rowSample : Nat → Nat → ℚ := fun r _ => (r : ℚ)
def zeroSample1 : Nat → ℚ := fun _ => 0

def sdLine05 : Line := ("1 0.5").data
def sdLine04 : Line := ("1 0.4").data
def sdLine11 : Line := ("1 1").data
def datLine5 : Line := ("1 5.0").data
def headerX : Line := ("x").data

/-- A standard-deviation table with exactly 12 data lines and one data
column. -/
def sdLinesC1 : List Line := List.replicate 12 sdLine05

/-- The `SDFile` the code builds from `sdLinesC1` in zero-run mode. -/
def sdC1 : SDFile :=
  ⟨sdLinesC1, setBlockNumsAux sdLinesC1 0, countDataLines sdLinesC1 / 6, 1,
    mkRnd true (countDataLines sdLinesC1 / 6 / 2) 1 zeroSample2⟩

/-- A 12-data-line table whose raw standard deviations are all `0.4`,
sampled with every matrix cell `1/2`, so each scaled coefficient is `0.2`. -/
def sdLinesC3 : List Line := List.replicate 12 sdLine04

def sdC3 : SDFile :=
  ⟨sdLinesC3, setBlockNumsAux sdLinesC3 0, countDataLines sdLinesC3 / 6, 1,
    mkRnd false (countDataLines sdLinesC3 / 6 / 2) 1 halfSample⟩

def datLinesC3 : List Line := [datLine5]

def keyK : Line := ("K").data
def pairsC3 : List (Line × ℚ) := [(keyK, 1 / 10)]
def lineC3 : Line := ("5.0 K").data

def pairsC7 : List (Line × ℚ) := [(keyK, 0)]
def lineC7 : Line := ("-5.0 K").data
def resC7 : Line := ("-5.000000").data

/-- A standard-deviation table whose first raw line is not a data line,
followed by 24 one-column data lines; sampled so row `r` holds value `r`. -/
def sdLinesC8 : List Line := headerX :: List.replicate 24 sdLine11

def sdC8 : SDFile :=
  ⟨sdLinesC8, setBlockNumsAux sdLinesC8 0, countDataLines sdLinesC8 / 6, 1,
    mkRnd false (countDataLines sdLinesC8 / 6 / 2) 1 rowSample⟩

/-- A baseline table whose 7 raw lines are all data lines. -/
def datLinesC8 : List Line := List.replicate 7 datLine5

def dC9 : Line := ("(5x,4(f10.5,3x))").data
def nfC9 : Line := ("10.5").data

def dC5 : Line := ("1x2xf..3(").data
def nfC5 : Line := ("..3").data

def effLinesC2 : List Line := [("header").data, ("K,0.5").data]
def noDataLines : List Line := [("abc").data]

def keyA : Line := ("A").data
def keyB : Line := ("B").data
def pairsC4 : List (Line × ℚ) := [(keyA, 1 / 10), (keyB, 1 / 5)]
def lineAB : Line := ("xAB").data
def lineXyz : Line := ("xyz").data
def wsLineC10 : Line := [' ', '\t', ' ']

/-- Modelled from the spec's words for claim C8: the block-assignment rule
`floor(data_line_ordinal / 6)` applied independently to the baseline
file's own data-line ordinals (the claim asserts this is the rule the
matrix-row selection uses, to be compared with the `SDFile` field the code
actually reads). -/
def specBaselineBlockNums (lines : List Line) : List Int := setBlockNumsAux lines 0

/-! ## General lemmas about the embedded operations -/

theorem setBlockNumsAux_length (L : List Line) (n : Nat) :
    (setBlockNumsAux L n).length = L.length := by
  induction L generalizing n with
  | nil => rfl
  | cons l rest ih => simp only [setBlockNumsAux]; split <;> simp [ih]

theorem countDataLines_nil : countDataLines [] = 0 := rfl

theorem countDataLines_cons (l : Line) (rest : List Line) :
    countDataLines (l :: rest) =
      (if isDataLine (splitTokens l) then 1 else 0) + countDataLines rest := by
  simp only [countDataLines, List.filter_cons]
  split <;> simp [Nat.add_comm]

/-- Every entry of the block-number list is `-1` or the floor-division by 6
of a data-line ordinal below the total data-line count. -/
theorem setBlockNumsAux_mem (L : List Line) (n : Nat) (b : Int)
    (hb : b ∈ setBlockNumsAux L n) :
    b = -1 ∨ ∃ m : Nat, n ≤ m ∧ m < n + countDataLines L ∧ b = ((m / 6 : Nat) : Int) := by
  induction L generalizing n with
  | nil => simp [setBlockNumsAux] at hb
  | cons l rest ih =>
    rw [countDataLines_cons]
    simp only [setBlockNumsAux] at hb
    by_cases hd : isDataLine (splitTokens l) = true
    · rw [if_pos hd] at hb
      rcases List.mem_cons.mp hb with hb | hb
      · subst hb
        exact Or.inr ⟨n, Nat.le_refl n, by simp [hd], rfl⟩
      · rcases ih (n + 1) hb with h | ⟨m, hm1, hm2, hm3⟩
        · exact Or.inl h
        · exact Or.inr ⟨m, by omega, by simp [hd]; omega, hm3⟩
    · rw [if_neg hd] at hb
      rcases List.mem_cons.mp hb with hb | hb
      · exact Or.inl hb
      · rcases ih n hb with h | ⟨m, hm1, hm2, hm3⟩
        · exact Or.inl h
        · refine Or.inr ⟨m, hm1, ?_, hm3⟩
          simp only [Bool.not_eq_true] at hd
          simp [hd]; omega

theorem mkRnd_length (z : Bool) (r c : Nat) (s : Nat → Nat → ℚ) :
    (mkRnd z r c s).length = r := by
  simp [mkRnd]

theorem mkRnd_zero_entry {r c : Nat} {s : Nat → Nat → ℚ} {row : List ℚ} {x : ℚ}
    (hrow : row ∈ mkRnd true r c s) (hx : x ∈ row) : x = 0 := by
  simp only [mkRnd, List.mem_map, List.mem_range] at hrow
  obtain ⟨i, _, rfl⟩ := hrow
  simp only [List.mem_map, List.mem_range] at hx
  obtain ⟨j, _, rfl⟩ := hx
  rfl

/-- Inversion of `mkSDFile` on success. -/
theorem mkSDFile_some {lines : List Line} {z : Bool} {s : Nat → Nat → ℚ} {sd : SDFile}
    (h : mkSDFile lines z s = some sd) :
    sd.lines = lines ∧ sd.blockNums = setBlockNumsAux lines 0 ∧
    sd.numBlocks = countDataLines lines / 6 ∧
    countCols lines = some sd.cols ∧
    sd.rnd = mkRnd z (countDataLines lines / 6 / 2) sd.cols s := by
  unfold mkSDFile at h
  cases hc : countCols lines with
  | none => rw [hc] at h; cases h
  | some c =>
    rw [hc] at h
    cases h
    exact ⟨rfl, rfl, rfl, rfl, rfl⟩

theorem scaleTokens_zero {rnd : List (List ℚ)} {ri : Nat}
    (hrnd : ∀ row ∈ rnd, ∀ x ∈ row, x = 0) :
    ∀ (ts : List Line) (i : Nat) (l : List ℚ),
      scaleTokens rnd ri ts i = some l → ∀ x ∈ l, x = 0 := by
  intro ts
  induction ts with
  | nil =>
    intro i l h x hx
    simp only [scaleTokens] at h
    cases h
    simp at hx
  | cons t ts ih =>
    intro i l h x hx
    simp only [scaleTokens] at h
    split at h
    · next v r rest hv hr hrest =>
      cases h
      rcases List.mem_cons.mp hx with hx | hx
      · subst hx
        obtain ⟨row, hrow, hri'⟩ := Option.bind_eq_some.mp hr
        have : r = 0 := hrnd row (List.get?_mem hrow) r (List.get?_mem hri')
        simp [this]
      · exact ih (i + 1) rest hrest x hx
    · cases h

/-- The comprehension fails on a nonempty token list as soon as the matrix
row index is out of bounds. -/
theorem scaleTokens_cons_none {rnd : List (List ℚ)} {ri : Nat}
    (hnone : rnd.get? ri = none) (t : Line) (ts : List Line) (i : Nat) :
    scaleTokens rnd ri (t :: ts) i = none := by
  rw [List.get?_eq_getElem?] at hnone
  cases hp : parseFloat t <;>
    cases hrec : scaleTokens rnd ri ts (i + 1) <;>
      simp [scaleTokens, hp, hnone, hrec]

theorem sdList_zero {sdLines : List Line} {s : Nat → Nat → ℚ} {sd : SDFile} {n : Nat}
    {sds : List ℚ} (hmk : mkSDFile sdLines true s = some sd)
    (h : sdList sd n = some sds) : ∀ x ∈ sds, x = 0 := by
  obtain ⟨-, -, -, -, hrnd⟩ := mkSDFile_some hmk
  unfold sdList at h
  split at h
  · next ri l hri hl =>
    refine scaleTokens_zero ?_ _ _ _ h
    intro row hrow x hx
    rw [hrnd] at hrow
    exact mkRnd_zero_entry hrow hx
  · cases h

theorem zipWith_add_zero_get :
    ∀ (a b : List ℚ), (∀ x ∈ b, x = 0) →
      ∀ i, i < (List.zipWith (· + ·) a b).length →
        (List.zipWith (· + ·) a b).get? i = a.get? i := by
  intro a
  induction a with
  | nil => intro b hb i hi; simp at hi
  | cons x xs ih =>
    intro b hb i hi
    cases b with
    | nil => simp at hi
    | cons y ys =>
      have hy : y = 0 := hb y (by simp)
      cases i with
      | zero => simp [hy]
      | succ j =>
        simp only [List.zipWith, List.get?]
        exact ih ys (fun z hz => hb z (by simp [hz])) j (by simpa using hi)

theorem getSdAux_effect_mem {full l : List (Line × ℚ)} {line : Line} {c : ℚ}
    (h : getSdAux full l line = .effect c) : ∃ k, (k, c) ∈ l := by
  induction l with
  | nil => cases h
  | cons p rest ih =>
    obtain ⟨k, sd⟩ := p
    simp only [getSdAux] at h
    split at h
    · split at h
      · cases h
      · cases h; exact ⟨k, by simp⟩
    · obtain ⟨k', hk'⟩ := ih h
      exact ⟨k', by simp [hk']⟩

theorem getSdAux_abort {full : List (Line × ℚ)} {line : Line}
    {k1 k2 : Line} {v1 v2 : ℚ}
    (h1 : (k1, v1) ∈ full) (h2 : (k2, v2) ∈ full) (hne : k1 ≠ k2)
    (hc1 : containsSub k1 line = true) (hc2 : containsSub k2 line = true) :
    ∀ l : List (Line × ℚ), (∃ p ∈ l, containsSub p.1 line = true) →
      getSdAux full l line = .abort := by
  intro l
  induction l with
  | nil => rintro ⟨p, hp, -⟩; simp at hp
  | cons q rest ih =>
    rintro ⟨p, hp, hpc⟩
    obtain ⟨k, sd⟩ := q
    simp only [getSdAux]
    by_cases hk : containsSub k line = true
    · rw [if_pos hk]
      have hany : ((full.filter (fun p => p.1 ≠ k)).any
          (fun p => containsSub p.1 line)) = true := by
        rw [List.any_eq_true]
        by_cases hkk : k1 = k
        · refine ⟨(k2, v2), List.mem_filter.mpr ⟨h2, ?_⟩, hc2⟩
          simp only [decide_eq_true_eq]
          exact fun h => hne (hkk.trans h.symm)
        · exact ⟨(k1, v1), List.mem_filter.mpr ⟨h1, by simpa using hkk⟩, hc1⟩
      rw [if_pos hany]
    · rw [if_neg hk]
      rcases List.mem_cons.mp hp with hp' | hp'
      · exfalso; rw [hp'] at hpc; exact hk hpc
      · exact ih ⟨p, hp', hpc⟩

theorem getSdAux_noEffect {full : List (Line × ℚ)} {line : Line} :
    ∀ l : List (Line × ℚ), (∀ p ∈ l, containsSub p.1 line = false) →
      getSdAux full l line = .noEffect := by
  intro l
  induction l with
  | nil => intro _; rfl
  | cons q rest ih =>
    intro h
    obtain ⟨k, sd⟩ := q
    have hk := h (k, sd) (by simp)
    simp only [getSdAux]
    rw [if_neg (by simp [hk])]
    exact ih (fun p hp => h p (by simp [hp]))

theorem replicate_get?_eq {n i : Nat} {a x : ℚ}
    (h : (List.replicate n a).get? i = some x) : x = a :=
  List.eq_of_mem_replicate (List.get?_mem h)

theorem generatePairsAux_zero {rnd : List ℚ}
    (hrnd : ∀ i x, rnd.get? i = some x → x = 0) :
    ∀ (L : List Line) (i : Nat) (ps : List (Line × ℚ)),
      generatePairsAux rnd L i = some ps → ∀ p ∈ ps, p.2 = 0 := by
  intro L
  induction L with
  | nil =>
    intro i ps h p hp
    simp only [generatePairsAux] at h
    cases h
    simp at hp
  | cons l rest ih =>
    intro i ps h p hp
    simp only [generatePairsAux] at h
    split at h
    · split at h
      · next sv r ps' hsv hr hps' =>
        cases h
        rcases List.mem_cons.mp hp with hp' | hp'
        · have : r = 0 := hrnd i r hr
          subst hp'
          simp [this]
        · exact ih (i + 1) ps' hps' p hp'
      · cases h
    · cases h

theorem countCols_none_iff (L : List Line) :
    countCols L = none ↔ ∀ l ∈ L, isDataLine (splitTokens l) = false := by
  induction L with
  | nil => simp [countCols]
  | cons l rest ih =>
    simp only [countCols]
    by_cases h : isDataLine (splitTokens l) = true
    · simp [h]
    · simp only [Bool.not_eq_true] at h
      simp [h, ih]

theorem countCols_some_first (L : List Line) (c : Nat) (h : countCols L = some c) :
    ∃ l, L.find? (fun l => isDataLine (splitTokens l)) = some l ∧
      c = (splitTokens l).length - 1 := by
  induction L with
  | nil => cases h
  | cons l rest ih =>
    simp only [countCols] at h
    by_cases hd : isDataLine (splitTokens l) = true
    · rw [if_pos hd] at h
      cases h
      exact ⟨l, List.find?_cons_of_pos _ hd, rfl⟩
    · rw [if_neg hd] at h
      obtain ⟨l', hl', hc⟩ := ih h
      refine ⟨l', ?_, hc⟩
      have hstep : List.find? (fun l => isDataLine (splitTokens l)) (l :: rest) =
          List.find? (fun l => isDataLine (splitTokens l)) rest :=
        List.find?_cons_of_neg _ hd
      rw [hstep]
      exact hl'

theorem splitTokensAux_ws {l : Line} (h : ∀ c ∈ l, c.isWhitespace = true) :
    splitTokensAux l [] = [] := by
  induction l with
  | nil => rfl
  | cons c rest ih =>
    have hc := h c (by simp)
    simp only [splitTokensAux, hc]
    simpa using ih (fun d hd => h d (by simp [hd]))

theorem setBlockNumsAux_congr :
    ∀ (L1 L2 : List Line) (n : Nat),
      L1.map (fun l => isDataLine (splitTokens l)) =
        L2.map (fun l => isDataLine (splitTokens l)) →
      setBlockNumsAux L1 n = setBlockNumsAux L2 n := by
  intro L1
  induction L1 with
  | nil =>
    intro L2 n h
    cases L2 with
    | nil => rfl
    | cons _ _ => simp at h
  | cons l rest ih =>
    intro L2 n h
    cases L2 with
    | nil => simp at h
    | cons l2 rest2 =>
      simp only [List.map_cons, List.cons.injEq] at h
      obtain ⟨hh, ht⟩ := h
      simp only [setBlockNumsAux, hh]
      by_cases hd : isDataLine (splitTokens l2) = true
      · rw [if_pos hd, if_pos hd, ih rest2 (n + 1) ht]
      · rw [if_neg hd, if_neg hd, ih rest2 n ht]

theorem sdList_none_of_row_oob {sd : SDFile} {n ri : Nat} {l : Line}
    (h : rowIndexUsed sd n = some ri) (hlen : sd.rnd.length ≤ ri)
    (hl : sd.lines.get? n = some l) (htok : 2 ≤ (splitTokens l).length) :
    sdList sd n = none := by
  have hnone : sd.rnd.get? ri = none := List.get?_eq_none.mpr hlen
  obtain ⟨t, ts, hdrop⟩ : ∃ t ts, (splitTokens l).drop 1 = t :: ts := by
    cases hd : (splitTokens l).drop 1 with
    | nil =>
      exfalso
      have := List.drop_eq_nil_iff.mp hd
      omega
    | cons t ts => exact ⟨t, ts, rfl⟩
  unfold sdList
  rw [h, hl]
  show scaleTokens sd.rnd ri ((splitTokens l).drop 1) 0 = none
  rw [hdrop]
  exact scaleTokens_cons_none hnone t ts 0

/-! ## Claims -/

/-- Claim C1, counterexample: for the 12-data-line standard-deviation table
`sdLinesC1` the block count is 2 and the matrix has 1 row, but the data
line at index 6 (block 1) resolves to matrix row index `1 % 2 = 1`, not
row 0, and reading its coefficients fails (numpy IndexError, modelled as
`none`) — the two blocks do not read the same coefficients. -/
theorem c1_counterexample :
    mkSDFile sdLinesC1 true zeroSample2 = some sdC1 ∧
    sdC1.numBlocks = 2 ∧ sdC1.rnd.length = 1 ∧
    rowIndexUsed sdC1 0 = some 0 ∧ sdList sdC1 0 = some [0] ∧
    rowIndexUsed sdC1 6 = some 1 ∧ rowIndexUsed sdC1 6 ≠ some 0 ∧
    sdList sdC1 6 = none := by decide

/-- Claim C1 as amended: for a standard-deviation table with exactly 12
data lines the block count is 2 and the matrix has exactly 1 row; every
block number is -1, 0 or 1; lines of block 0 resolve to matrix row index
0, while lines of block 1 resolve to row index 1, which is outside the
1-row matrix — so reading coefficients for a block-1 line fails with an
IndexError when the line carries at least one coefficient token, and
yields the empty list, without ever indexing the matrix, when it carries
none.  In neither case does a block-1 line read row 0. -/
theorem c1_block_parity (lines : List Line) (z : Bool) (s : Nat → Nat → ℚ)
    (sd : SDFile) (hmk : mkSDFile lines z s = some sd)
    (h12 : countDataLines lines = 12) :
    sd.numBlocks = 2 ∧ sd.rnd.length = 1 ∧
    (∀ i b, sd.blockNums.get? i = some b → b = -1 ∨ b = 0 ∨ b = 1) ∧
    (∀ i, sd.blockNums.get? i = some 0 → rowIndexUsed sd i = some 0) ∧
    (∀ i, sd.blockNums.get? i = some 1 →
      rowIndexUsed sd i = some 1 ∧
      ∀ l, sd.lines.get? i = some l →
        (2 ≤ (splitTokens l).length → sdList sd i = none) ∧
        ((splitTokens l).length ≤ 1 → sdList sd i = some [])) := by
  obtain ⟨hl, hbn, hnb, hcc, hrnd⟩ := mkSDFile_some hmk
  have hlen : sd.rnd.length = 1 := by
    rw [hrnd, mkRnd_length, h12]
  refine ⟨by rw [hnb, h12], hlen, ?_, ?_, ?_⟩
  · intro i b hib
    have hmem : b ∈ sd.blockNums := List.get?_mem hib
    rw [hbn] at hmem
    rcases setBlockNumsAux_mem _ _ _ hmem with h | ⟨m, -, hm2, rfl⟩
    · exact Or.inl h
    · rw [h12] at hm2
      have : m / 6 = 0 ∨ m / 6 = 1 := by omega
      rcases this with h | h <;> simp [h]
  · intro i hib
    unfold rowIndexUsed
    rw [hib]
    rfl
  · intro i hib
    have hri : rowIndexUsed sd i = some 1 := by
      unfold rowIndexUsed
      rw [hib]
      rfl
    refine ⟨hri, ?_⟩
    intro l hli
    constructor
    · intro htok
      exact sdList_none_of_row_oob hri (by rw [hlen]) hli htok
    · intro htok
      have hdrop : (splitTokens l).drop 1 = [] :=
        List.drop_eq_nil_iff.mpr htok
      unfold sdList
      rw [hri, hli]
      show scaleTokens sd.rnd 1 ((splitTokens l).drop 1) 0 = some []
      rw [hdrop]
      rfl

/-- Claim C1 witness: the amended theorem applied to the concrete
12-data-line table. -/
theorem c1_witness : sdC1.numBlocks = 2 ∧ sdC1.rnd.length = 1 :=
  ⟨(c1_block_parity sdLinesC1 true zeroSample2 sdC1 (by decide) (by decide)).1,
   (c1_block_parity sdLinesC1 true zeroSample2 sdC1 (by decide) (by decide)).2.1⟩

/-- Claim C2: in deterministic (zero-run) mode every perturbed value equals
its baseline value, on both pipelines: every varied list produced by the
table pipeline agrees entrywise with the parsed means of its line, and
every varied scalar equals the parsed leading mean of its line. -/
theorem c2_deterministic_idempotent :
    (∀ (sdLines : List Line) (s : Nat → Nat → ℚ) (sd : SDFile)
       (datLines : List Line) (n : Nat) (v : List ℚ),
       mkSDFile sdLines true s = some sd →
       datVaried sd datLines n = some v →
       ∃ line ms, datLines.get? n = some line ∧
         parseFloats ((splitTokens line).drop 1) = some ms ∧
         ∀ i, i < v.length → v.get? i = ms.get? i) ∧
    (∀ (effLines : List Line) (s : Nat → ℚ) (pairs : List (Line × ℚ))
       (line : Line) (q : ℚ),
       mkEffects effLines true s = some pairs →
       inpVaried pairs line = some q →
       ∃ t ts, splitTokens line = t :: ts ∧ parseFloat t = some q) := by
  constructor
  · intro sdLines s sd datLines n v hmk hv
    unfold datVaried at hv
    split at hv
    · cases hv
    · next line hline =>
      split at hv
      · split at hv
        · next sds ms hsds hms =>
          cases hv
          exact ⟨line, ms, hline, hms,
            zipWith_add_zero_get ms sds (sdList_zero hmk hsds)⟩
        · cases hv
      · cases hv
  · intro effLines s pairs line q hmk hq
    have hzero : ∀ p ∈ pairs, p.2 = 0 := by
      unfold mkEffects at hmk
      simp only [if_pos] at hmk
      exact generatePairsAux_zero
        (fun i x hx => replicate_get?_eq hx) _ _ _ hmk
    unfold inpVaried at hq
    split at hq
    · next sd0 hsd =>
      obtain ⟨k, hk⟩ := getSdAux_effect_mem hsd
      have hsd0 : sd0 = 0 := hzero (k, sd0) hk
      split at hq
      · cases hq
      · next t ts hts =>
        cases hm : parseFloat t with
        | none => rw [hm] at hq; cases hq
        | some m =>
          rw [hm] at hq
          simp only [Option.map_some'] at hq
          injection hq with hq
          refine ⟨t, ts, hts, ?_⟩
          rw [hm, ← hq, hsd0]
          norm_num
    · cases hq

/-- Claim C2 witness: the theorem applied to a concrete zero-run table
pipeline (`sdC1`, one baseline data line with mean 5) and a concrete
zero-run scalar pipeline (key `K`, line `5.0 K`). -/
theorem c2_witness :
    (∃ line ms, datLinesC3.get? 0 = some line ∧
       parseFloats ((splitTokens line).drop 1) = some ms ∧
       ∀ i, i < ([5] : List ℚ).length → ([5] : List ℚ).get? i = ms.get? i) ∧
    (∃ t ts, splitTokens lineC3 = t :: ts ∧ parseFloat t = some 5) :=
  ⟨c2_deterministic_idempotent.1 sdLinesC1 zeroSample2 sdC1 datLinesC3 0 [5]
      (by decide) (by decide),
   c2_deterministic_idempotent.2 effLinesC2 zeroSample1 pairsC7 lineC3 5
      (by decide) (by decide)⟩

/-- Claim C3: the table pipeline is additive and the scalar pipeline is
multiplicative: with mean 5.0 and scaled coefficient 0.2 (raw sd 0.4 times
matrix coefficient 0.5) the table pipeline produces 5.2, while with mean
5.0 and key coefficient 0.1 the scalar pipeline produces
5.0 + 0.1*5.0 = 5.5. -/
theorem c3_additive_vs_multiplicative :
    mkSDFile sdLinesC3 false halfSample = some sdC3 ∧
    sdList sdC3 0 = some [1 / 5] ∧
    datVaried sdC3 datLinesC3 0 = some [26 / 5] ∧
    inpVaried pairsC3 lineC3 = some (11 / 2) := by decide

/-- Claim C4: key-effect lookup aborts the run whenever two distinct keys
of the effects table are substrings of the line, and returns no-effect
(leaving the line unchanged) whenever no key is a substring. -/
theorem c4_key_lookup (pairs : List (Line × ℚ)) (line : Line) :
    ((∃ p1, p1 ∈ pairs ∧ ∃ p2, p2 ∈ pairs ∧ p1.1 ≠ p2.1 ∧
        containsSub p1.1 line = true ∧ containsSub p2.1 line = true) →
      getSd pairs line = .abort) ∧
    ((∀ p ∈ pairs, containsSub p.1 line = false) →
      getSd pairs line = .noEffect ∧ inpVaryLine pairs line = .keep) := by
  constructor
  · rintro ⟨⟨k1, v1⟩, h1, ⟨k2, v2⟩, h2, hne, hc1, hc2⟩
    exact getSdAux_abort h1 h2 hne hc1 hc2 pairs ⟨(k1, v1), h1, hc1⟩
  · intro h
    refine ⟨getSdAux_noEffect pairs h, ?_⟩
    unfold inpVaryLine
    rw [show getSd pairs line = .noEffect from getSdAux_noEffect pairs h]

/-- Claim C4 witness: with keys `A` and `B`, the line `xAB` (both keys
occur) aborts and the line `xyz` (no key occurs) is a no-effect. -/
theorem c4_witness :
    getSd pairsC4 lineAB = .abort ∧
    (getSd pairsC4 lineXyz = .noEffect ∧ inpVaryLine pairsC4 lineXyz = .keep) :=
  ⟨(c4_key_lookup pairsC4 lineAB).1
      ⟨(keyA, 1 / 10), by decide, (keyB, 1 / 5), by decide, by decide,
        by decide, by decide⟩,
   (c4_key_lookup pairsC4 lineXyz).2 (by decide)⟩

/-- Claim C5, counterexample: the descriptor `1x2xf..3(` has a present but
malformed field-specifier token (`..3` is not of the form
width.precision), yet parsing succeeds — the malformation only surfaces
when a line is rendered through the template. -/
theorem c5_counterexample :
    parseFormat dC5 = some ⟨1, nfC5, 2, 3⟩ ∧
    parseFieldSpec nfC5 = none ∧
    renderLine ⟨1, nfC5, 2, 3⟩ [0, 0, 0] = none := by decide

/-- Claim C5 as amended: parsing a format-descriptor line succeeds with the
extracted template components exactly when the `<N>x` padding-token match
list has exactly two entries and the field-specifier and repeat-count
tokens are present; a present-but-malformed field specifier is not
rejected at parse time. -/
theorem c5_format_tokens (d : Line) (a : Nat) (nf : Line) (b c : Nat) :
    parseFormat d = some ⟨a, nf, b, c⟩ ↔
      findDigitsX d = [a, b] ∧ findFSpec d = some nf ∧ findRepeat d = some c := by
  constructor
  · intro h
    unfold parseFormat at h
    split at h
    · next a' b' nf' c' hx hf hr =>
      cases h
      exact ⟨hx, hf, hr⟩
    · cases h
  · rintro ⟨hx, hf, hr⟩
    unfold parseFormat
    rw [hx, hf, hr]

/-- Claim C5 witness: the amended theorem applied to the well-formed
descriptor `(5x,4(f10.5,3x))`. -/
theorem c5_witness : parseFormat dC9 = some ⟨5, nfC9, 3, 4⟩ :=
  (c5_format_tokens dC9 5 nfC9 3 4).mpr (by decide)

/-- Claim C6: constructing the standard-deviation file fails exactly when
the table has no data line (the column count cannot be derived), and on
success the column count is the token count of the first data line minus
one. -/
theorem c6_empty_table (lines : List Line) (z : Bool) (s : Nat → Nat → ℚ) :
    (mkSDFile lines z s = none ↔
      ∀ l ∈ lines, isDataLine (splitTokens l) = false) ∧
    (∀ sd, mkSDFile lines z s = some sd →
      ∃ l, lines.find? (fun l => isDataLine (splitTokens l)) = some l ∧
        sd.cols = (splitTokens l).length - 1) := by
  constructor
  · rw [← countCols_none_iff]
    unfold mkSDFile
    cases hc : countCols lines with
    | none => simp
    | some c => simp
  · intro sd hmk
    obtain ⟨-, -, -, hcc, -⟩ := mkSDFile_some hmk
    obtain ⟨l, hl, hc⟩ := countCols_some_first lines sd.cols hcc
    exact ⟨l, hl, hc⟩

/-- Claim C6 witness: a table with no data line fails to construct, and the
12-data-line table has column count 1 = 2 - 1. -/
theorem c6_witness :
    mkSDFile noDataLines true zeroSample2 = none ∧
    (∃ l, sdLinesC1.find? (fun l => isDataLine (splitTokens l)) = some l ∧
      sdC1.cols = (splitTokens l).length - 1) :=
  ⟨(c6_empty_table noDataLines true zeroSample2).1.mpr (by decide),
   (c6_empty_table sdLinesC1 true zeroSample2).2 sdC1 (by decide)⟩

/-- Claim C7, counterexample: the scalar-pipeline line `-5.0 K` fails the
first-token-starts-with-a-digit test, yet with key `K` in the effects
table it is rewritten (to `-5.000000`, in deterministic mode), so it is
not byte-for-byte unchanged. -/
theorem c7_counterexample :
    isDataLine (splitTokens lineC7) = false ∧
    inpVaryLine pairsC7 lineC7 = .set resC7 ∧
    resC7 ≠ lineC7 := by decide

/-- Claim C7 as amended: in the table pipeline, any line whose first token
does not start with a digit is left unchanged (in every mode); in the
scalar pipeline the passthrough condition is instead that no key of the
effects table occurs in the line as a substring. -/
theorem c7_passthrough :
    (∀ (sd : SDFile) (fs : FormatSpec) (lines : List Line) (n : Nat) (line : Line),
       lines.get? n = some line → isDataLine (splitTokens line) = false →
       datVaryLine sd fs lines n = .keep) ∧
    (∀ (pairs : List (Line × ℚ)) (line : Line),
       (∀ p ∈ pairs, containsSub p.1 line = false) →
       inpVaryLine pairs line = .keep) := by
  constructor
  · intro sd fs lines n line hn hd
    unfold datVaryLine
    split
    · next hnone => rw [hn] at hnone; cases hnone
    · next line' hline' =>
      rw [hn] at hline'
      injection hline' with hline'
      subst hline'
      rw [if_neg (by simp [hd])]
  · intro pairs line h
    unfold inpVaryLine
    rw [show getSd pairs line = .noEffect from getSdAux_noEffect pairs h]

/-- Claim C7 witness: the amended theorem applied to a non-data table line
and a scalar line matched by no key. -/
theorem c7_witness :
    datVaryLine sdC1 ⟨5, nfC9, 3, 4⟩ [headerX] 0 = .keep ∧
    inpVaryLine pairsC7 lineXyz = .keep :=
  ⟨c7_passthrough.1 sdC1 ⟨5, nfC9, 3, 4⟩ [headerX] 0 headerX (by decide) (by decide),
   c7_passthrough.2 pairsC7 lineXyz (by decide)⟩

/-- Claim C8, counterexample: with a standard-deviation file whose first
raw line is not a data line, the block number the code applies to baseline
line 6 is the SD file's assignment at index 6 (block 0, matrix row 0,
coefficient 0, varied value 5), while the rule applied to the baseline
file's own data-line ordinals would give block 1 and matrix row 1
(coefficient 1, varied value 6). -/
theorem c8_counterexample :
    mkSDFile sdLinesC8 false rowSample = some sdC8 ∧
    isDataLine (splitTokens datLine5) = true ∧
    sdC8.blockNums.get? 6 = some 0 ∧
    (specBaselineBlockNums datLinesC8).get? 6 = some 1 ∧
    rowIndexUsed sdC8 6 = some 0 ∧
    ((specBaselineBlockNums datLinesC8).get? 6).map (fun b => (b % 2).toNat) =
      some 1 ∧
    datVaried sdC8 datLinesC8 6 = some [5] ∧
    (some [5] : Option (List ℚ)) ≠ some [6] := by decide

/-- Claim C8 as amended: the matrix row is selected by `block_number % 2`
where the block number is read from the standard-deviation file's
block-number list at the same raw line index; this agrees with the rule
applied to the baseline file's own ordinals exactly when the two files
classify their lines identically. -/
theorem c8_block_source (sdLines datLines : List Line) (z : Bool)
    (s : Nat → Nat → ℚ) (sd : SDFile) (hmk : mkSDFile sdLines z s = some sd)
    (hmask : sdLines.map (fun l => isDataLine (splitTokens l)) =
             datLines.map (fun l => isDataLine (splitTokens l))) :
    sd.blockNums = specBaselineBlockNums datLines ∧
    (∀ n, rowIndexUsed sd n =
      (sd.blockNums.get? n).map (fun b => (b % 2).toNat)) := by
  refine ⟨?_, fun n => rfl⟩
  rw [(mkSDFile_some hmk).2.1]
  exact setBlockNumsAux_congr sdLines datLines 0 hmask

/-- Claim C8 witness: the amended theorem applied with identical
standard-deviation and baseline line classifications. -/
theorem c8_witness : sdC1.blockNums = specBaselineBlockNums sdLinesC1 :=
  (c8_block_source sdLinesC1 sdLinesC1 true zeroSample2 sdC1 (by decide) rfl).1

/-- Claim C9: parsing the descriptor `(5x,4(f10.5,3x))` yields leading
padding 5, field token `10.5`, inter-field padding 3 and repeat count 4;
rendering the values 1, 2, 3, 4 through the resulting template and
re-parsing the whitespace tokens of the rendered line recovers exactly
1, 2, 3, 4. -/
theorem c9_format_round_trip :
    parseFormat dC9 = some ⟨5, nfC9, 3, 4⟩ ∧
    ((parseFormat dC9).bind (fun fs => renderLine fs [1, 2, 3, 4])).map
      (fun l => parseFloats (splitTokens l)) = some (some [1, 2, 3, 4]) := by
  decide

/-- Claim C10: classification is total on empty and whitespace-only lines:
their token list is empty, they are classified as non-data without any
failure, and the table pipeline leaves them untouched. -/
theorem c10_empty_line_total (line : Line)
    (h : ∀ c ∈ line, c.isWhitespace = true) :
    splitTokens line = [] ∧ isDataLine (splitTokens line) = false ∧
    (∀ (sd : SDFile) (fs : FormatSpec) (lines : List Line) (n : Nat),
      lines.get? n = some line → datVaryLine sd fs lines n = .keep) := by
  have hst : splitTokens line = [] := splitTokensAux_ws h
  refine ⟨hst, by rw [hst]; rfl, ?_⟩
  intro sd fs lines n hn
  unfold datVaryLine
  split
  · next hnone => rw [hn] at hnone; cases hnone
  · next line' hline' =>
    rw [hn] at hline'
    injection hline' with hline'
    subst hline'
    rw [if_neg (by simp [hst, isDataLine])]

/-- Claim C10 witness: the theorem applied to a whitespace-only line. -/
theorem c10_witness :
    splitTokens wsLineC10 = [] ∧
    datVaryLine sdC1 ⟨5, nfC9, 3, 4⟩ [wsLineC10] 0 = .keep :=
  ⟨(c10_empty_line_total wsLineC10 (by decide)).1,
   (c10_empty_line_total wsLineC10 (by decide)).2.2 sdC1 ⟨5, nfC9, 3, 4⟩
     [wsLineC10] 0 (by decide)⟩
